import Mathlib

/-!
Verification development for the coregistration example
(`coregistration/Coregistration.ipynb`) and the stack-alignment engine it
drives.  The notebook itself contains `MaxCCPredicate` and `make_gif`,
which are embedded directly from the source below.  The registration
engine (`TransformModel`, the resampler, the registration algorithms and
the stack aligner) is invoked by the notebook but its implementation is
not part of the repository's source tree, so those components are
modelled from the specification, as marked in the doc comments.
-/

/-! ## TransformModel -/

/-- Modelled from the spec: the family tag of a planar transform
(identity/translation/Euler/affine/homography), restricting degrees of
freedom used during estimation and validation. -/
inductive TransformFamily where
  | identity
  | translation
  | euler
  | affine
  | homography
  deriving DecidableEq, Repr

/-- Modelled from the spec: a 3×3 homogeneous planar transform matrix,
with explicit rational entries. -/
structure Mat3 where
  a00 : ℚ
  a01 : ℚ
  a02 : ℚ
  a10 : ℚ
  a11 : ℚ
  a12 : ℚ
  a20 : ℚ
  a21 : ℚ
  a22 : ℚ
  deriving DecidableEq, Repr

namespace Mat3

/-- The 3×3 identity matrix. -/
def idMat : Mat3 := ⟨1, 0, 0, 0, 1, 0, 0, 0, 1⟩

/-- Matrix product of two 3×3 matrices. -/
def mul (m n : Mat3) : Mat3 :=
  ⟨m.a00 * n.a00 + m.a01 * n.a10 + m.a02 * n.a20,
   m.a00 * n.a01 + m.a01 * n.a11 + m.a02 * n.a21,
   m.a00 * n.a02 + m.a01 * n.a12 + m.a02 * n.a22,
   m.a10 * n.a00 + m.a11 * n.a10 + m.a12 * n.a20,
   m.a10 * n.a01 + m.a11 * n.a11 + m.a12 * n.a21,
   m.a10 * n.a02 + m.a11 * n.a12 + m.a12 * n.a22,
   m.a20 * n.a00 + m.a21 * n.a10 + m.a22 * n.a20,
   m.a20 * n.a01 + m.a21 * n.a11 + m.a22 * n.a21,
   m.a20 * n.a02 + m.a21 * n.a12 + m.a22 * n.a22⟩

/-- Determinant of a 3×3 matrix, by cofactor expansion along the
first row. -/
def det (m : Mat3) : ℚ :=
  m.a00 * (m.a11 * m.a22 - m.a12 * m.a21)
    - m.a01 * (m.a10 * m.a22 - m.a12 * m.a20)
    + m.a02 * (m.a10 * m.a21 - m.a11 * m.a20)

/-- Adjugate (transposed cofactor matrix) of a 3×3 matrix. -/
def adjugate (m : Mat3) : Mat3 :=
  ⟨m.a11 * m.a22 - m.a12 * m.a21,
   m.a02 * m.a21 - m.a01 * m.a22,
   m.a01 * m.a12 - m.a02 * m.a11,
   m.a12 * m.a20 - m.a10 * m.a22,
   m.a00 * m.a22 - m.a02 * m.a20,
   m.a02 * m.a10 - m.a00 * m.a12,
   m.a10 * m.a21 - m.a11 * m.a20,
   m.a01 * m.a20 - m.a00 * m.a21,
   m.a00 * m.a11 - m.a01 * m.a10⟩

/-- Scalar multiple of a 3×3 matrix. -/
def smul (c : ℚ) (m : Mat3) : Mat3 :=
  ⟨c * m.a00, c * m.a01, c * m.a02,
   c * m.a10, c * m.a11, c * m.a12,
   c * m.a20, c * m.a21, c * m.a22⟩

end Mat3

/-- Modelled from the spec: the error raised when a transform with a
near-zero determinant is inverted. -/
inductive SingularTransformError where
  | singular
  deriving DecidableEq, Repr

/-- Modelled from the spec: a TransformModel is a 3×3 homogeneous planar
transform matrix plus a tag identifying its family. -/
structure TransformModel where
  family : TransformFamily
  m : Mat3
  deriving DecidableEq, Repr

namespace TransformModel

/-- Least family containing both operand families, used to tag a
composition. -/
def familyJoin (f g : TransformFamily) : TransformFamily :=
  if f = .identity then g
  else if g = .identity then f
  else if f = g then f
  else .homography

/-- The identity transform. -/
def identityTransform : TransformModel := ⟨.identity, Mat3.idMat⟩

/-- Modelled from the spec: `compose(other)` returns the matrix
product. -/
def compose (t u : TransformModel) : TransformModel :=
  ⟨familyJoin t.family u.family, t.m.mul u.m⟩

/-- Modelled from the spec: `invert()` fails with
`SingularTransformError` when the matrix determinant is below a
numerical tolerance, and otherwise returns the inverse matrix
(adjugate divided by determinant). -/
def invert (t : TransformModel) (tol : ℚ) :
    Except SingularTransformError TransformModel :=
  if |t.m.det| < tol then .error .singular
  else .ok ⟨t.family, Mat3.smul t.m.det⁻¹ t.m.adjugate⟩

/-- A pure translation transform by `(dx, dy)`. -/
def translationTransform (dx dy : ℚ) : TransformModel :=
  ⟨.translation, ⟨1, 0, dx, 0, 1, dy, 0, 0, 1⟩⟩

/-- Map a 2D point through the homogeneous transform, re-normalizing by
the homogeneous coordinate. -/
def apply (t : TransformModel) (p : ℚ × ℚ) : ℚ × ℚ :=
  let d := t.m.a20 * p.1 + t.m.a21 * p.2 + t.m.a22
  ((t.m.a00 * p.1 + t.m.a01 * p.2 + t.m.a02) / d,
   (t.m.a10 * p.1 + t.m.a11 * p.2 + t.m.a12) / d)

end TransformModel

/-! ## Resampler -/

/-- A 2D raster: a list of rows of rational pixel values. -/
abbrev Image := List (List ℚ)

/-- Modelled from the spec: the selectable interpolation kernels of the
resampler (nearest, bilinear, bicubic). -/
inductive Interpolation where
  | nearest
  | linear
  | cubic
  deriving DecidableEq, Repr

/-- Read the source raster at integer position (row `r`, column `c`);
out-of-bounds positions yield the fill sentinel. -/
def sampleAt (img : Image) (fill : ℚ) (r c : ℤ) : ℚ :=
  if 0 ≤ r ∧ 0 ≤ c then
    if r.toNat < img.length ∧ c.toNat < (img.getD r.toNat []).length then
      (img.getD r.toNat []).getD c.toNat 0
    else fill
  else fill

/-- Nearest-neighbor kernel: round the source position to the closest
source pixel. -/
def nearestSample (img : Image) (fill : ℚ) (x y : ℚ) : ℚ :=
  sampleAt img fill (round y) (round x)

/-- Bilinear kernel: weighted average of the 4 neighbors. -/
def bilinearSample (img : Image) (fill : ℚ) (x y : ℚ) : ℚ :=
  let x0 : ℤ := ⌊x⌋
  let y0 : ℤ := ⌊y⌋
  let fx : ℚ := x - (x0 : ℚ)
  let fy : ℚ := y - (y0 : ℚ)
  (1 - fy) * ((1 - fx) * sampleAt img fill y0 x0 +
      fx * sampleAt img fill y0 (x0 + 1)) +
    fy * ((1 - fx) * sampleAt img fill (y0 + 1) x0 +
      fx * sampleAt img fill (y0 + 1) (x0 + 1))

/-- The Keys bicubic convolution kernel with parameter a = -1/2. -/
def cubicWeight (d : ℚ) : ℚ :=
  let t := |d|
  if t ≤ 1 then (3/2) * t ^ 3 - (5/2) * t ^ 2 + 1
  else if t ≤ 2 then (-1/2) * (t ^ 3 - 5 * t ^ 2 + 8 * t - 4)
  else 0

/-- Bicubic kernel: 16-neighbor weighted sum. -/
def bicubicSample (img : Image) (fill : ℚ) (x y : ℚ) : ℚ :=
  let x0 : ℤ := ⌊x⌋
  let y0 : ℤ := ⌊y⌋
  ∑ i ∈ Finset.range 4, ∑ j ∈ Finset.range 4,
    cubicWeight (y - ((y0 + (i : ℤ) - 1 : ℤ) : ℚ)) *
      cubicWeight (x - ((x0 + (j : ℤ) - 1 : ℤ) : ℚ)) *
      sampleAt img fill (y0 + (i : ℤ) - 1) (x0 + (j : ℤ) - 1)

/-- Dispatch on the configured interpolation kernel. -/
def interpolate : Interpolation → Image → ℚ → ℚ → ℚ → ℚ
  | .nearest, img, fill, x, y => nearestSample img fill x y
  | .linear, img, fill, x, y => bilinearSample img fill x y
  | .cubic, img, fill, x, y => bicubicSample img fill x y

/-- Modelled from the spec: `resample(sourceLayer, transform,
interpolation, outputShape)` produces a new raster of `outputShape`
where each output pixel's value is sampled from the source raster at
the position obtained by mapping the output pixel through the
output-to-source transform. -/
def resample (interp : Interpolation) (t : TransformModel) (fill : ℚ)
    (src : Image) (outH outW : Nat) : Image :=
  (List.range outH).map fun (r : ℕ) =>
    (List.range outW).map fun (c : ℕ) =>
      let p := t.apply (((c : ℕ) : ℚ), ((r : ℕ) : ℚ))
      interpolate interp src fill p.1 p.2

/-- Modelled from the spec: classification of a raster layer as
continuous (photometric) or categorical (label/mask). -/
inductive LayerKind where
  | continuous
  | categorical
  deriving DecidableEq, Repr

/-- A named raster layer of a frame. -/
structure Layer where
  name : String
  kind : LayerKind
  data : Image
  deriving DecidableEq, Repr

/-- Modelled from the spec: the configuration surface of the aligner. -/
structure AlignConfig where
  refIndex : Nat
  channel : String
  interpolation : Interpolation
  minConfidence : ℚ
  continuousFill : ℚ
  categoricalFill : ℚ
  detMin : ℚ
  detMax : ℚ
  deriving DecidableEq, Repr

/-- Modelled from the spec: categorical layers are always interpolated
with nearest-neighbor regardless of the global configuration; this is
the invariant enforced by the stack aligner, never overridable per
call. -/
def layerInterp (cfg : AlignConfig) : LayerKind → Interpolation
  | .categorical => .nearest
  | .continuous => cfg.interpolation

/-- Out-of-bounds fill sentinel chosen per layer kind (zero default for
continuous, the designated no-data label for categorical). -/
def layerFill (cfg : AlignConfig) : LayerKind → ℚ
  | .categorical => cfg.categoricalFill
  | .continuous => cfg.continuousFill

/-- Width of a raster, read from its first row. -/
def imageWidth (img : Image) : Nat := (img.getD 0 []).length

/-- Resample one layer of a frame with the layer-appropriate kernel and
fill, keeping the source shape as output shape. -/
def resampleLayer (cfg : AlignConfig) (t : TransformModel) (l : Layer) :
    Layer :=
  ⟨l.name, l.kind,
   resample (layerInterp cfg l.kind) t (layerFill cfg l.kind) l.data
     l.data.length (imageWidth l.data)⟩

/-! ## Frames, stacks and the aligner -/

/-- Modelled from the spec: a single time-step's raster layers. -/
structure Frame where
  layers : List Layer
  deriving DecidableEq, Repr

/-- Modelled from the spec: an ordered sequence of frames
(order = acquisition time order). -/
structure Stack where
  frames : List Frame
  deriving DecidableEq, Repr

/-- Modelled from the spec: the taxonomy of recoverable per-frame
estimation failures. -/
inductive EstimationFailure where
  | lowConfidence
  | convergenceFailure
  | insufficientMatches
  | implausibleTransform
  | singularTransform
  deriving DecidableEq, Repr

/-- Modelled from the spec: a warning-level diagnostic recorded when a
frame's estimate degrades to identity. -/
inductive Diagnostic where
  | warning (frameIndex : Nat) (reason : EstimationFailure)
  deriving DecidableEq, Repr

/-- Modelled from the spec: output of a registration algorithm — a
transform plus a confidence/quality indicator. -/
structure RegistrationEstimate where
  transform : TransformModel
  quality : ℚ
  deriving DecidableEq, Repr

/-- A registration algorithm estimates a transform between a reference
image and a target image, or reports a typed estimation failure. -/
abbrev RegistrationAlgorithm :=
  Image → Image → Except EstimationFailure RegistrationEstimate

/-- Modelled from the spec: fatal structural/contract violations,
surfaced to the caller. -/
inductive FatalError where
  | emptyStack
  | badReferenceIndex
  | unknownLayer
  | shapeMismatch
  deriving DecidableEq, Repr

/-- Modelled from the spec: plausibility policy on a fitted transform
(admissible determinant range: bounded scale, no reflection), with the
thresholds exposed as configuration. -/
def plausibleTransform (cfg : AlignConfig) (t : TransformModel) : Bool :=
  decide (cfg.detMin ≤ t.m.det) && decide (t.m.det ≤ cfg.detMax)

/-- Modelled from the spec: validation of a registration estimate —
low-confidence estimates and implausible transforms are classified as
recoverable failures. -/
def validateEstimate (cfg : AlignConfig) (e : RegistrationEstimate) :
    Option EstimationFailure :=
  if e.quality < cfg.minConfidence then some .lowConfidence
  else if plausibleTransform cfg e.transform then none
  else some .implausibleTransform

namespace Frame

/-- The names of the layers of a frame. -/
def layerNames (f : Frame) : List String := f.layers.map Layer.name

/-- The image data of the named layer (empty when absent). -/
def channelImage (f : Frame) (name : String) : Image :=
  match f.layers.find? (fun l => l.name == name) with
  | some l => l.data
  | none => []

/-- Structural signature of a frame: per layer its name, kind and
shape. -/
def layerSig (f : Frame) : List (String × LayerKind × Nat × Nat) :=
  f.layers.map fun l => (l.name, l.kind, l.data.length, imageWidth l.data)

end Frame

/-- A rectangular raster: every row has the width of the first row. -/
abbrev RectImage (img : Image) : Prop :=
  ∀ row ∈ img, row.length = imageWidth img

/-- All frames of the stack share the structural signature of the first
frame, and all rasters are rectangular. -/
abbrev uniformStack (s : Stack) : Prop :=
  ∀ f ∈ s.frames, f.layerSig = (s.frames.getD 0 ⟨[]⟩).layerSig ∧
    ∀ l ∈ f.layers, RectImage l.data

/-- Modelled from the spec: the input contract of the aligner — a
non-empty stack of structurally identical frames, a valid reference
index and a known estimation layer. -/
abbrev validStack (cfg : AlignConfig) (s : Stack) : Prop :=
  0 < s.frames.length ∧ cfg.refIndex < s.frames.length ∧
    cfg.channel ∈ (s.frames.getD 0 ⟨[]⟩).layerNames ∧ uniformStack s

/-- The estimation channel image of the reference frame. -/
def refImageOf (cfg : AlignConfig) (s : Stack) : Image :=
  (s.frames.getD cfg.refIndex ⟨[]⟩).channelImage cfg.channel

/-- Resample every layer of a frame with the given transform. -/
def resampleFrame (cfg : AlignConfig) (t : TransformModel) (f : Frame) :
    Frame :=
  ⟨f.layers.map (resampleLayer cfg t)⟩

/-- Modelled from the spec: per-frame unit of work of the stack
aligner.  The reference frame is resampled with the identity transform
(a pass-through copy); every other frame runs the configured
registration algorithm, validates the estimate, and degrades to the
identity transform plus a warning diagnostic on any estimation
failure. -/
def processFrame (alg : RegistrationAlgorithm) (cfg : AlignConfig)
    (refImg : Image) (i : Nat) (f : Frame) : Frame × List Diagnostic :=
  if i = cfg.refIndex then
    (resampleFrame cfg TransformModel.identityTransform f, [])
  else
    match alg refImg (f.channelImage cfg.channel) with
    | .error e =>
        (resampleFrame cfg TransformModel.identityTransform f, [.warning i e])
    | .ok est =>
        match validateEstimate cfg est with
        | some e =>
            (resampleFrame cfg TransformModel.identityTransform f,
             [.warning i e])
        | none => (resampleFrame cfg est.transform f, [])

/-- The per-frame results of the aligner, in input frame order. -/
def alignedFrames (alg : RegistrationAlgorithm) (cfg : AlignConfig)
    (s : Stack) : List (Frame × List Diagnostic) :=
  (List.range s.frames.length).map fun i =>
    processFrame alg cfg (refImageOf cfg s) i (s.frames.getD i ⟨[]⟩)

/-- Modelled from the spec: the stack aligner.  Structural/contract
violations are fatal; otherwise every frame is processed and the output
stack preserves the input frame order, together with the collected
warning diagnostics. -/
def alignStack (alg : RegistrationAlgorithm) (cfg : AlignConfig)
    (s : Stack) : Except FatalError (Stack × List Diagnostic) :=
  if 0 < s.frames.length then
    if cfg.refIndex < s.frames.length then
      if cfg.channel ∈ (s.frames.getD 0 ⟨[]⟩).layerNames then
        if uniformStack s then
          .ok (⟨(alignedFrames alg cfg s).map Prod.fst⟩,
               ((alignedFrames alg cfg s).map Prod.snd).flatten)
        else .error .shapeMismatch
      else .error .unknownLayer
    else .error .badReferenceIndex
  else .error .emptyStack

/-! ## Object allocation model for the aligner's frame effect -/

/-- Modelled from the spec: the allocation environment of Frame
objects; object identity is the index in the allocation list. -/
structure FrameHeap where
  objects : List Frame
  deriving DecidableEq, Repr

/-- A reference to an allocated Frame object. -/
abbrev FrameRef := Nat

/-- A stack object: an ordered list of references to Frame objects. -/
structure StackRef where
  frameRefs : List FrameRef
  deriving DecidableEq, Repr

/-- Dereference a frame object. -/
def FrameHeap.deref (h : FrameHeap) (r : FrameRef) : Frame :=
  h.objects.getD r ⟨[]⟩

/-- Read a whole stack through the heap. -/
def derefStack (h : FrameHeap) (sr : StackRef) : Stack :=
  ⟨sr.frameRefs.map h.deref⟩

/-- Allocate a list of new Frame objects, returning fresh
references. -/
def allocFrames (h : FrameHeap) (fs : List Frame) :
    FrameHeap × List FrameRef :=
  (⟨h.objects ++ fs⟩,
   (List.range fs.length).map fun i => h.objects.length + i)

/-- Modelled from the spec: the stateful entry point of the aligner —
it reads the input stack's frames through the heap, runs the pure
aligner, and allocates new Frame objects for the output stack rather
than mutating the input objects. -/
def alignStackStateful (alg : RegistrationAlgorithm) (cfg : AlignConfig)
    (h : FrameHeap) (sr : StackRef) :
    FrameHeap × Except FatalError (StackRef × List Diagnostic) :=
  match alignStack alg cfg (derefStack h sr) with
  | .error e => (h, .error e)
  | .ok (out, diags) =>
      let alloc := allocFrames h out.frames
      (alloc.1, .ok (⟨alloc.2⟩, diags))

/-! ## IntensityRegistration iteration structure -/

/-- Modelled from the spec: the parameters of an Euler
(translation + rotation) transform refined by IntensityRegistration. -/
structure EulerParams where
  dx : ℚ
  dy : ℚ
  theta : ℚ
  deriving DecidableEq, Repr

/-- L1 distance between two parameter vectors, the convergence
measure. -/
def paramDist (p q : EulerParams) : ℚ :=
  |p.dx - q.dx| + |p.dy - q.dy| + |p.theta - q.theta|

/-- Modelled from the spec: the configuration of
IntensityRegistration. -/
structure ECCConfig where
  maxIterations : Nat
  convergenceEpsilon : ℚ
  deriving DecidableEq, Repr

/-- Modelled from the spec: the iterative refinement loop of
IntensityRegistration — run one gradient-based update per iteration and
stop when the parameter change falls below the convergence epsilon or
the iteration budget is exhausted.  Returns the final parameters and
the number of iterations executed.  The per-iteration update itself
(warp target, photometric gradient correlation, parameter update) is
abstracted as the `step` argument; the loop structure is what is
modelled. -/
def eccRefine (step : EulerParams → EulerParams) (eps : ℚ) :
    Nat → EulerParams → EulerParams × Nat
  | 0, p => (p, 0)
  | n + 1, p =>
      let q := step p
      if paramDist p q < eps then (q, 1)
      else
        let r := eccRefine step eps n q
        (r.1, r.2 + 1)

/-- Modelled from the spec: IntensityRegistration — iteratively refine
an Euler transform between the reference and target images, starting
from the identity parameters. -/
def intensityRegister (step : Image → Image → EulerParams → EulerParams)
    (cfg : ECCConfig) (ref target : Image) : EulerParams × Nat :=
  eccRefine (step ref target) cfg.convergenceEpsilon cfg.maxIterations
    ⟨0, 0, 0⟩

/-! ## CorrelationRegistration -/

/-- Pixel access used by the correlation sums. -/
def imgAt (img : Image) (r c : Nat) : ℚ := (img.getD r []).getD c 0

/-- Double sum of a function over an `hh × ww` grid. -/
def gridSum (hh ww : Nat) (F : Nat → Nat → ℚ) : ℚ :=
  ∑ r ∈ Finset.range hh, ∑ c ∈ Finset.range ww, F r c

/-- Mean pixel value of an image over its own grid. -/
def imageMean (img : Image) : ℚ :=
  gridSum img.length (imageWidth img) (imgAt img) /
    ((img.length : ℚ) * (imageWidth img : ℚ))

/-- Zero-mean pixel value. -/
def centered (img : Image) (r c : Nat) : ℚ := imgAt img r c - imageMean img

/-- Sum of squared zero-mean values of `img` over an `hh × ww` grid. -/
def energyOn (hh ww : Nat) (img : Image) : ℚ :=
  gridSum hh ww fun r c => centered img r c ^ 2

/-- Circular zero-mean cross-correlation of two images at shift
`(sy, sx)`, over the reference grid. -/
def crossCorr (f g : Image) (sy sx : Nat) : ℚ :=
  gridSum f.length (imageWidth f) fun r c =>
    centered f r c *
      centered g ((r + sy) % f.length) ((c + sx) % imageWidth f)

/-- Normalized squared correlation score of a shift; lies in `[0, 1]`
by the Cauchy-Schwarz inequality (textureless images have zero energy
and score 0). -/
def corrScore (f g : Image) (sy sx : Nat) : ℚ :=
  crossCorr f g sy sx ^ 2 /
    (energyOn f.length (imageWidth f) f *
      energyOn f.length (imageWidth f) g)

/-- All candidate cyclic shifts of the reference grid. -/
def shiftList (f : Image) : List (Nat × Nat) :=
  ((List.range f.length).map fun sy =>
    (List.range (imageWidth f)).map fun sx => (sy, sx)).flatten

/-- Keep the better-scoring of two candidate peaks. -/
def betterPeak (b cand : (Nat × Nat) × ℚ) : (Nat × Nat) × ℚ :=
  if b.2 < cand.2 then cand else b

/-- Locate the maximum of the correlation surface (first maximum in
scan order). -/
def findPeak (f g : Image) : (Nat × Nat) × ℚ :=
  (shiftList f).foldl (fun b s => betterPeak b (s, corrScore f g s.1 s.2))
    ((0, 0), corrScore f g 0 0)

/-- Wraparound correction of a circular peak offset. -/
def wrapOffset (s n : Nat) : ℤ :=
  if 2 * s ≤ n then (s : ℤ) else (s : ℤ) - (n : ℤ)

/-- Modelled from the spec: CorrelationRegistration — locate the peak
of the normalized correlation surface of the two images (computed here
as zero-mean circular cross-correlation over the pixel grid, squared
and normalized so that the peak value lies in [0, 1]), apply the
wraparound correction to the peak offset, and return a
translation-only transform with the peak value as the quality
indicator. -/
def correlationRegister (f g : Image) : RegistrationEstimate :=
  let peak := findPeak f g
  ⟨TransformModel.translationTransform
      ((wrapOffset peak.1.2 (imageWidth f) : ℤ) : ℚ)
      ((wrapOffset peak.1.1 f.length : ℤ) : ℚ),
   peak.2⟩

/-- Modelled from the spec: the estimation entry point of
CorrelationRegistration as exposed to the aligner.  Stochastic
algorithms draw random samples from the provided seed; phase
correlation uses no randomness, so the seed is unused. -/
def correlationEstimate (_seed : Nat) (f g : Image) :
    Except EstimationFailure RegistrationEstimate :=
  .ok (correlationRegister f g)

/-! ## Notebook code: MaxCCPredicate and make_gif -/

/-- A 3-dimensional cloud-mask array, as unpacked by the source
(`w, h, _ = img_cm.shape`). -/
abbrev CloudMask := List (List (List ℚ))

/-- Embedded from the source (`MaxCCPredicate.__init__`): the stored
cloud-coverage threshold. -/
structure MaxCCPredicate where
  maxcc : ℚ
  deriving DecidableEq, Repr

/-- Total sum of all entries of a 3-dimensional array (`np.sum`). -/
def sum3 (m : CloudMask) : ℚ :=
  (m.map fun plane => (plane.map fun row => row.sum).sum).sum

/-- Embedded from the source (`MaxCCPredicate.__call__`):
`w, h, _ = img_cm.shape; cc = np.sum(img_cm) / (w * h);
return cc <= self.maxcc` — the divisor is the product of the first two
dimensions only. -/
def MaxCCPredicate.call (p : MaxCCPredicate) (img_cm : CloudMask) :
    Bool :=
  decide (sum3 img_cm /
    ((img_cm.length : ℚ) * ((img_cm.getD 0 []).length : ℚ)) ≤ p.maxcc)

/-- Clip to `[0, 255]` and truncate to uint8, as `np.uint8` applied to
the clipped value (truncation toward zero equals floor on non-negative
values). -/
def castU8 (q : ℚ) : ℕ := (⌊min (max q 0) 255⌋).toNat

/-- Embedded from the source (`make_gif`): each frame written to the
GIF is `np.array(np.clip(2.8 * image[..., [2, 1, 0]], 0, 255),
dtype=np.uint8)` — channels reordered `[2, 1, 0]`, scaled by 2.8 (= 14/5),
clipped to `[0, 255]` and cast to uint8. -/
def gifFrame (image : List (List (List ℚ))) : List (List (List ℕ)) :=
  image.map fun row => row.map fun pix =>
    [2, 1, 0].map fun k => castU8 ((14/5) * pix.getD k 0)

/-! ## Concrete instances used by witnesses and counterexamples -/

/-- A concrete reference image for the correlation witness. -/
def wImgA : Image := [[1, 0], [0, 1]]

/-- A concrete target image for the correlation witness. -/
def wImgB : Image := [[0, 1], [1, 0]]

/-- A concrete per-iteration update that keeps the parameters fixed. -/
def wStep : Image → Image → EulerParams → EulerParams := fun _ _ p => p

/-- A concrete IntensityRegistration configuration. -/
def wECCConfig : ECCConfig := ⟨5, 1⟩

/-- A concrete categorical layer holding the single label 5. -/
def cexLayer : Layer := ⟨"MASK", .categorical, [[5]]⟩

/-- A concrete configuration with cubic global interpolation and
categorical no-data fill 0. -/
def cexConfig : AlignConfig := ⟨0, "BANDS", .cubic, 0, 0, 0, 1/2, 2⟩

/-- A concrete translation that maps the output pixel outside the
source raster. -/
def cexTransform : TransformModel := TransformModel.translationTransform 3 3

/-- A concrete two-layer frame (continuous bands plus a categorical
mask). -/
def wFrame0 : Frame :=
  ⟨[⟨"BANDS", .continuous, [[1, 2], [3, 4]]⟩,
    ⟨"CLM", .categorical, [[0, 1], [1, 0]]⟩]⟩

/-- A second frame with the same structure and different values. -/
def wFrame1 : Frame :=
  ⟨[⟨"BANDS", .continuous, [[4, 3], [2, 1]]⟩,
    ⟨"CLM", .categorical, [[1, 0], [0, 1]]⟩]⟩

/-- A concrete valid two-frame stack. -/
def wStack : Stack := ⟨[wFrame0, wFrame1]⟩

/-- A concrete aligner configuration for the witness stack. -/
def wConfig : AlignConfig := ⟨0, "BANDS", .linear, 0, 0, 0, 1/2, 2⟩

/-- A concrete heap holding the two witness frames. -/
def wHeap : FrameHeap := ⟨[wFrame0, wFrame1]⟩

/-- A concrete stack object referencing both allocated frames. -/
def wStackRef : StackRef := ⟨[0, 1]⟩

/-- A registration algorithm that always fails to converge. -/
def walgFail : RegistrationAlgorithm :=
  fun _ _ => .error .convergenceFailure

/-- A registration algorithm that always returns a unit translation. -/
def walgOk : RegistrationAlgorithm :=
  fun _ _ => .ok ⟨TransformModel.translationTransform 1 0, 1⟩

/-! ## Theorems -/

lemma alignStack_eq_ok (alg : RegistrationAlgorithm) (cfg : AlignConfig)
    (s : Stack) (h : validStack cfg s) :
    alignStack alg cfg s =
      .ok (⟨(alignedFrames alg cfg s).map Prod.fst⟩,
           ((alignedFrames alg cfg s).map Prod.snd).flatten) := by
  obtain ⟨h1, h2, h3, h4⟩ := h
  unfold alignStack
  rw [if_pos h1, if_pos h2, if_pos h3, if_pos h4]

lemma alignedFrames_length (alg : RegistrationAlgorithm)
    (cfg : AlignConfig) (s : Stack) :
    (alignedFrames alg cfg s).length = s.frames.length := by
  simp [alignedFrames]

lemma alignedFrames_getElem (alg : RegistrationAlgorithm)
    (cfg : AlignConfig) (s : Stack) (i : Nat)
    (hi : i < (alignedFrames alg cfg s).length) :
    (alignedFrames alg cfg s).get ⟨i, hi⟩ =
      processFrame alg cfg (refImageOf cfg s) i (s.frames.getD i ⟨[]⟩) := by
  unfold alignedFrames
  simp

lemma processFrame_failure (alg : RegistrationAlgorithm)
    (cfg : AlignConfig) (refImg : Image) (i : Nat) (f : Frame)
    (e : EstimationFailure) (hi : i ≠ cfg.refIndex)
    (hfail : alg refImg (f.channelImage cfg.channel) = .error e ∨
      ∃ est, alg refImg (f.channelImage cfg.channel) = .ok est ∧
        validateEstimate cfg est = some e) :
    processFrame alg cfg refImg i f =
      (resampleFrame cfg TransformModel.identityTransform f,
       [.warning i e]) := by
  unfold processFrame
  rw [if_neg hi]
  rcases hfail with h | ⟨est, h1, h2⟩
  · rw [h]
  · rw [h1]
    simp [h2]


lemma mat3_mul_smul_adjugate (m : Mat3) (h : m.det ≠ 0) :
    m.mul (Mat3.smul m.det⁻¹ m.adjugate) = Mat3.idMat := by
  simp only [Mat3.mul, Mat3.smul, Mat3.adjugate, Mat3.idMat, Mat3.det] at *
  refine Mat3.mk.injEq _ _ _ _ _ _ _ _ _ _ _ _ _ _ _ _ _ _ ▸
    ⟨?_, ?_, ?_, ?_, ?_, ?_, ?_, ?_, ?_⟩ <;> field_simp <;> ring

/-- **C5.** For every transform `t` and positive tolerance, if `invert`
succeeds then composing `t` with the result yields the identity matrix
exactly (hence within any numerical tolerance); and `invert` fails with
`SingularTransformError` exactly when the magnitude of the matrix
determinant is below the tolerance. -/
theorem transform_compose_invert_identity (t : TransformModel) (tol : ℚ)
    (htol : 0 < tol) :
    (∀ u, t.invert tol = Except.ok u →
      (t.compose u).m = Mat3.idMat) ∧
    (t.invert tol = Except.error SingularTransformError.singular ↔
      |t.m.det| < tol) := by
  constructor
  · intro u hu
    unfold TransformModel.invert at hu
    by_cases hdet : |t.m.det| < tol
    · simp [hdet] at hu
    · simp [hdet] at hu
      have hne : t.m.det ≠ 0 := by
        intro h0
        apply hdet
        rw [h0]
        simpa using htol
      rw [← hu]
      simp [TransformModel.compose, mat3_mul_smul_adjugate t.m hne]
  · constructor
    · intro h
      by_contra hdet
      simp [TransformModel.invert, hdet] at h
    · intro h
      simp [TransformModel.invert, h]

/-- Witness for C5: a concrete translation transform with determinant 1
inverts successfully at tolerance 1/1000, and the composition with its
inverse is the identity matrix. -/
theorem transform_compose_invert_identity_witness :
    (0 : ℚ) < 1/1000 ∧
    (∀ u, (TransformModel.translationTransform 2 3).invert (1/1000) =
        Except.ok u →
      ((TransformModel.translationTransform 2 3).compose u).m = Mat3.idMat) ∧
    ((TransformModel.translationTransform 2 3).invert (1/1000) =
        Except.error SingularTransformError.singular ↔
      |(TransformModel.translationTransform 2 3).m.det| < 1/1000) :=
  ⟨by norm_num,
   transform_compose_invert_identity
     (TransformModel.translationTransform 2 3) (1/1000) (by norm_num)⟩

lemma aligned_fst_getD (alg : RegistrationAlgorithm) (cfg : AlignConfig)
    (s : Stack) (i : Nat) (hi : i < s.frames.length) :
    ((alignedFrames alg cfg s).map Prod.fst).getD i ⟨[]⟩ =
      (processFrame alg cfg (refImageOf cfg s) i (s.frames.getD i ⟨[]⟩)).1 := by
  have hl : i < ((alignedFrames alg cfg s).map Prod.fst).length := by
    simpa [alignedFrames_length] using hi
  rw [List.getD_eq_getElem _ _ hl]
  simp [alignedFrames]

lemma aligned_mem (alg : RegistrationAlgorithm) (cfg : AlignConfig)
    (s : Stack) (i : Nat) (hi : i < s.frames.length) :
    processFrame alg cfg (refImageOf cfg s) i (s.frames.getD i ⟨[]⟩) ∈
      alignedFrames alg cfg s := by
  unfold alignedFrames
  exact List.mem_map.mpr ⟨i, List.mem_range.mpr hi, rfl⟩

/-- **C1.** For every registration algorithm, configuration and valid
input stack, alignment succeeds (no estimation failure aborts the
stack); and for every non-reference frame whose estimation step fails —
either the algorithm reports a failure or its estimate is rejected by
validation (low confidence or implausible transform) — the output frame
is the input frame resampled with the identity transform and a warning
diagnostic naming that frame is emitted. -/
theorem estimation_failure_degrades_to_identity
    (alg : RegistrationAlgorithm) (cfg : AlignConfig) (s : Stack)
    (h : validStack cfg s) :
    ∃ out diags, alignStack alg cfg s = Except.ok (out, diags) ∧
      out.frames.length = s.frames.length ∧
      ∀ i, i < s.frames.length → i ≠ cfg.refIndex →
        ∀ e : EstimationFailure,
          (alg (refImageOf cfg s)
              ((s.frames.getD i ⟨[]⟩).channelImage cfg.channel) =
            Except.error e ∨
           (∃ est, alg (refImageOf cfg s)
               ((s.frames.getD i ⟨[]⟩).channelImage cfg.channel) =
             Except.ok est ∧ validateEstimate cfg est = some e)) →
          out.frames.getD i ⟨[]⟩ =
            resampleFrame cfg TransformModel.identityTransform
              (s.frames.getD i ⟨[]⟩) ∧
          Diagnostic.warning i e ∈ diags := by
  refine ⟨_, _, alignStack_eq_ok alg cfg s h, by simp [alignedFrames_length], ?_⟩
  intro i hi hne e hfail
  have hpf := processFrame_failure alg cfg (refImageOf cfg s) i
    (s.frames.getD i ⟨[]⟩) e hne hfail
  constructor
  · show ((alignedFrames alg cfg s).map Prod.fst).getD i ⟨[]⟩ = _
    rw [aligned_fst_getD alg cfg s i hi, hpf]
  · refine List.mem_flatten.mpr ⟨[Diagnostic.warning i e], ?_, by simp⟩
    exact List.mem_map.mpr ⟨_, aligned_mem alg cfg s i hi, by rw [hpf]⟩

/-- Witness for C1: on a concrete valid two-frame stack with an
algorithm that always fails to converge, alignment succeeds and the
failing frame degrades to identity with a warning. -/
theorem estimation_failure_degrades_witness :
    validStack wConfig wStack ∧
    (∃ out diags, alignStack walgFail wConfig wStack = Except.ok (out, diags) ∧
      out.frames.length = wStack.frames.length ∧
      ∀ i, i < wStack.frames.length → i ≠ wConfig.refIndex →
        ∀ e : EstimationFailure,
          (walgFail (refImageOf wConfig wStack)
              ((wStack.frames.getD i ⟨[]⟩).channelImage wConfig.channel) =
            Except.error e ∨
           (∃ est, walgFail (refImageOf wConfig wStack)
               ((wStack.frames.getD i ⟨[]⟩).channelImage wConfig.channel) =
             Except.ok est ∧ validateEstimate wConfig est = some e)) →
          out.frames.getD i ⟨[]⟩ =
            resampleFrame wConfig TransformModel.identityTransform
              (wStack.frames.getD i ⟨[]⟩) ∧
          Diagnostic.warning i e ∈ diags) :=
  ⟨by decide,
   estimation_failure_degrades_to_identity walgFail wConfig wStack (by decide)⟩

lemma resample_length (interp : Interpolation) (t : TransformModel)
    (fill : ℚ) (src : Image) (outH outW : Nat) :
    (resample interp t fill src outH outW).length = outH := by
  unfold resample
  rw [List.length_map, List.length_range]

lemma resample_imageWidth (interp : Interpolation) (t : TransformModel)
    (fill : ℚ) (src : Image) (outW : Nat) (h : 0 < src.length) :
    imageWidth (resample interp t fill src src.length outW) = outW := by
  have hl : 0 < (resample interp t fill src src.length outW).length := by
    rw [resample_length]
    exact h
  unfold imageWidth
  rw [List.getD_eq_getElem _ _ hl]
  unfold resample
  rw [List.getElem_map]
  rw [List.length_map, List.length_range]

lemma resampleLayer_dims (cfg : AlignConfig) (t : TransformModel)
    (l : Layer) :
    (resampleLayer cfg t l).data.length = l.data.length ∧
    imageWidth (resampleLayer cfg t l).data = imageWidth l.data := by
  constructor
  · exact resample_length _ _ _ _ _ _
  · rcases Nat.eq_zero_or_pos l.data.length with h0 | hpos
    · have hnil : l.data = [] := List.length_eq_zero.mp h0
      show imageWidth (resample _ _ _ l.data l.data.length _) = _
      rw [hnil]
      rfl
    · exact resample_imageWidth _ _ _ _ _ hpos

lemma resampleFrame_sig (cfg : AlignConfig) (t : TransformModel)
    (f : Frame) :
    (resampleFrame cfg t f).layerSig = f.layerSig ∧
    (resampleFrame cfg t f).layerNames = f.layerNames := by
  constructor
  · unfold resampleFrame Frame.layerSig
    rw [List.map_map]
    apply List.map_congr_left
    intro l _
    have hd := resampleLayer_dims cfg t l
    simp only [Function.comp_apply, hd.1, hd.2]
    rfl
  · unfold resampleFrame Frame.layerNames
    rw [List.map_map]
    apply List.map_congr_left
    intro l _
    rfl

lemma processFrame_forms (alg : RegistrationAlgorithm) (cfg : AlignConfig)
    (refImg : Image) (i : Nat) (f : Frame) :
    ∃ t d, processFrame alg cfg refImg i f = (resampleFrame cfg t f, d) := by
  unfold processFrame
  split
  · exact ⟨_, _, rfl⟩
  · split
    · exact ⟨_, _, rfl⟩
    · split
      · exact ⟨_, _, rfl⟩
      · exact ⟨_, _, rfl⟩

/-- **C3.** For every registration algorithm, configuration and valid
input stack, the aligner returns a stack with the same number of
frames, and each output frame (at the same position as its input frame)
has the same list of layer names and the same per-layer structural
signature (name, kind, height, width) as the input frame. -/
theorem output_stack_structure (alg : RegistrationAlgorithm)
    (cfg : AlignConfig) (s : Stack) (h : validStack cfg s) :
    ∃ out diags, alignStack alg cfg s = Except.ok (out, diags) ∧
      out.frames.length = s.frames.length ∧
      ∀ i, i < s.frames.length →
        (out.frames.getD i ⟨[]⟩).layerNames =
          (s.frames.getD i ⟨[]⟩).layerNames ∧
        (out.frames.getD i ⟨[]⟩).layerSig =
          (s.frames.getD i ⟨[]⟩).layerSig := by
  refine ⟨_, _, alignStack_eq_ok alg cfg s h, by simp [alignedFrames_length], ?_⟩
  intro i hi
  obtain ⟨t, d, hf⟩ := processFrame_forms alg cfg (refImageOf cfg s) i
    (s.frames.getD i ⟨[]⟩)
  have hsig := resampleFrame_sig cfg t (s.frames.getD i ⟨[]⟩)
  have hgetD : (⟨(alignedFrames alg cfg s).map Prod.fst⟩ : Stack).frames.getD
      i ⟨[]⟩ = resampleFrame cfg t (s.frames.getD i ⟨[]⟩) := by
    show ((alignedFrames alg cfg s).map Prod.fst).getD i ⟨[]⟩ = _
    rw [aligned_fst_getD alg cfg s i hi, hf]
  rw [hgetD]
  exact ⟨hsig.2, hsig.1⟩

/-- Witness for C3: the structure theorem applied to the concrete
two-frame stack with a concrete translation-returning algorithm. -/
theorem output_stack_structure_witness :
    validStack wConfig wStack ∧
    (∃ out diags, alignStack walgOk wConfig wStack = Except.ok (out, diags) ∧
      out.frames.length = wStack.frames.length ∧
      ∀ i, i < wStack.frames.length →
        (out.frames.getD i ⟨[]⟩).layerNames =
          (wStack.frames.getD i ⟨[]⟩).layerNames ∧
        (out.frames.getD i ⟨[]⟩).layerSig =
          (wStack.frames.getD i ⟨[]⟩).layerSig) :=
  ⟨by decide, output_stack_structure walgOk wConfig wStack (by decide)⟩

lemma sampleAt_mem_or_fill (img : Image) (fill : ℚ) (r c : ℤ) :
    sampleAt img fill r c ∈ img.flatten ∨ sampleAt img fill r c = fill := by
  unfold sampleAt
  split_ifs with h1 h2
  · left
    obtain ⟨hr, hc⟩ := h2
    refine List.mem_flatten.mpr ⟨img.getD r.toNat [], ?_, ?_⟩
    · rw [List.getD_eq_getElem _ _ hr]
      exact List.getElem_mem hr
    · rw [List.getD_eq_getElem _ _ hc]
      exact List.getElem_mem hc
  · right; rfl
  · right; rfl

lemma resample_nearest_values (t : TransformModel) (fill : ℚ)
    (src : Image) (outH outW : Nat) :
    ∀ v ∈ (resample .nearest t fill src outH outW).flatten,
      v ∈ src.flatten ∨ v = fill := by
  intro v hv
  unfold resample at hv
  rw [List.mem_flatten] at hv
  obtain ⟨row, hrow, hvrow⟩ := hv
  rw [List.mem_map] at hrow
  obtain ⟨r, _, hr⟩ := hrow
  rw [← hr, List.mem_map] at hvrow
  obtain ⟨c, _, hc⟩ := hvrow
  rw [← hc]
  exact sampleAt_mem_or_fill src fill _ _

/-- **C2 (amended).** For every configuration (any global interpolation
kind), transform and categorical layer, resampling the layer uses the
nearest-neighbor kernel with the categorical no-data fill — the result
is independent of the configured global interpolation — and every value
of the output layer is either a value of the input layer or the
configured categorical no-data fill label. -/
theorem categorical_layer_nearest_value_set (cfg : AlignConfig)
    (t : TransformModel) (l : Layer) (hk : l.kind = .categorical) :
    resampleLayer cfg t l =
      ⟨l.name, l.kind,
        resample .nearest t cfg.categoricalFill l.data l.data.length
          (imageWidth l.data)⟩ ∧
    ∀ v ∈ (resampleLayer cfg t l).data.flatten,
      v ∈ l.data.flatten ∨ v = cfg.categoricalFill := by
  have h1 : resampleLayer cfg t l =
      ⟨l.name, l.kind,
        resample .nearest t cfg.categoricalFill l.data l.data.length
          (imageWidth l.data)⟩ := by
    unfold resampleLayer
    rw [hk]
    rfl
  refine ⟨h1, ?_⟩
  rw [h1]
  exact resample_nearest_values t cfg.categoricalFill l.data
    l.data.length (imageWidth l.data)

/-- Counterexample for C2 as stated: resampling a concrete categorical
layer holding only the label 5 with a translation that maps the output
pixel out of bounds produces the no-data fill 0, a value outside the
input layer's value set. -/
theorem categorical_layer_new_value_counterexample :
    cexLayer.kind = LayerKind.categorical ∧
    ¬ ∀ v ∈ (resampleLayer cexConfig cexTransform cexLayer).data.flatten,
        v ∈ cexLayer.data.flatten := by
  have hdata : (resampleLayer cexConfig cexTransform cexLayer).data =
      [[0]] := by
    norm_num [resampleLayer, cexLayer, cexConfig, cexTransform, resample,
      layerInterp, layerFill, imageWidth, interpolate, nearestSample,
      TransformModel.apply, TransformModel.translationTransform, sampleAt,
      round_eq, List.range_succ]
  refine ⟨rfl, fun hall => ?_⟩
  have h0 := hall 0 (by rw [hdata]; simp)
  rw [show cexLayer.data = [[5]] from rfl] at h0
  norm_num at h0

/-- Witness for C2 (amended): the amended theorem applied to the
concrete categorical layer, transform and configuration. -/
theorem categorical_layer_nearest_value_set_witness :
    cexLayer.kind = LayerKind.categorical ∧
    (resampleLayer cexConfig cexTransform cexLayer =
      ⟨cexLayer.name, cexLayer.kind,
        resample .nearest cexTransform cexConfig.categoricalFill
          cexLayer.data cexLayer.data.length (imageWidth cexLayer.data)⟩ ∧
    ∀ v ∈ (resampleLayer cexConfig cexTransform cexLayer).data.flatten,
      v ∈ cexLayer.data.flatten ∨ v = cexConfig.categoricalFill) :=
  ⟨rfl,
   categorical_layer_nearest_value_set cexConfig cexTransform cexLayer rfl⟩

/-- **C4.** For every algorithm, configuration, heap and input stack
object whose frame references are all allocated, running the aligner
leaves every previously allocated Frame object unchanged (in
particular, re-reading the input stack afterwards yields exactly the
frames it held before), and on success the returned stack is built from
freshly allocated Frame references, none of which occurs in the input
stack. -/
theorem align_never_mutates_input (alg : RegistrationAlgorithm)
    (cfg : AlignConfig) (h : FrameHeap) (sr : StackRef)
    (hrefs : ∀ r ∈ sr.frameRefs, r < h.objects.length) :
    (∀ r, r < h.objects.length →
      (alignStackStateful alg cfg h sr).1.deref r = h.deref r) ∧
    derefStack (alignStackStateful alg cfg h sr).1 sr = derefStack h sr ∧
    ∀ out diags,
      (alignStackStateful alg cfg h sr).2 = .ok (out, diags) →
      ∀ r ∈ out.frameRefs, h.objects.length ≤ r ∧ r ∉ sr.frameRefs := by
  have hderef : ∀ r, r < h.objects.length →
      (alignStackStateful alg cfg h sr).1.deref r = h.deref r := by
    intro r hr
    unfold alignStackStateful
    cases halign : alignStack alg cfg (derefStack h sr) with
    | error e => rfl
    | ok p =>
        show FrameHeap.deref ⟨h.objects ++ p.1.frames⟩ r = h.deref r
        unfold FrameHeap.deref
        exact List.getD_append _ _ _ _ hr
  refine ⟨hderef, ?_, ?_⟩
  · unfold derefStack
    congr 1
    apply List.map_congr_left
    intro r hr
    exact hderef r (hrefs r hr)
  · intro out diags hok r hrout
    unfold alignStackStateful at hok
    cases halign : alignStack alg cfg (derefStack h sr) with
    | error e =>
        rw [halign] at hok
        exact absurd hok (by simp)
    | ok p =>
        rw [halign] at hok
        have hout : out = ⟨(List.range p.1.frames.length).map
            fun i => h.objects.length + i⟩ := by
          have := congrArg (fun x => match x with
            | Except.ok (o, _) => o
            | Except.error _ => ⟨[]⟩) hok
          simpa using this.symm
        rw [hout] at hrout
        obtain ⟨i, _, hi⟩ := List.mem_map.mp hrout
        have hi2 : h.objects.length + i = r := hi
        constructor
        · omega
        · intro hmem
          have hlt : r < h.objects.length := hrefs r hmem
          exact Nat.not_lt.mpr (by omega) hlt

/-- Witness for C4: the no-mutation theorem applied to the concrete
heap, stack object and failing algorithm. -/
theorem align_never_mutates_input_witness :
    (∀ r ∈ wStackRef.frameRefs, r < wHeap.objects.length) ∧
    ((∀ r, r < wHeap.objects.length →
      (alignStackStateful walgFail wConfig wHeap wStackRef).1.deref r =
        wHeap.deref r) ∧
    derefStack (alignStackStateful walgFail wConfig wHeap wStackRef).1
        wStackRef = derefStack wHeap wStackRef ∧
    ∀ out diags,
      (alignStackStateful walgFail wConfig wHeap wStackRef).2 =
        .ok (out, diags) →
      ∀ r ∈ out.frameRefs,
        wHeap.objects.length ≤ r ∧ r ∉ wStackRef.frameRefs) :=
  ⟨by decide,
   align_never_mutates_input walgFail wConfig wHeap wStackRef (by decide)⟩

lemma eccRefine_iterations_le (step : EulerParams → EulerParams)
    (eps : ℚ) : ∀ n p, (eccRefine step eps n p).2 ≤ n := by
  intro n
  induction n with
  | zero => intro p; exact Nat.le_refl 0
  | succ k ih =>
      intro p
      unfold eccRefine
      by_cases hc : paramDist p (step p) < eps
      · simp [hc]
      · simp only [hc, if_false]
        exact Nat.succ_le_succ (ih (step p))

lemma eccRefine_early_stop (step : EulerParams → EulerParams) (eps : ℚ)
    (m : Nat) (p : EulerParams) (hm : 1 ≤ m)
    (hconv : paramDist p (step p) < eps) :
    eccRefine step eps m p = (step p, 1) := by
  cases m with
  | zero => exact absurd hm (by simp)
  | succ k =>
      unfold eccRefine
      simp [hconv]

/-- **C6.** For every per-iteration update, configuration and input
image pair, IntensityRegistration terminates after at most
`maxIterations` iterations; and when the very first parameter change
already falls below `convergenceEpsilon` it stops after exactly one
iteration with that update's result. -/
theorem intensity_registration_terminates
    (step : Image → Image → EulerParams → EulerParams) (cfg : ECCConfig)
    (ref target : Image) :
    (intensityRegister step cfg ref target).2 ≤ cfg.maxIterations ∧
    (1 ≤ cfg.maxIterations →
      paramDist ⟨0, 0, 0⟩ (step ref target ⟨0, 0, 0⟩) <
        cfg.convergenceEpsilon →
      intensityRegister step cfg ref target =
        (step ref target ⟨0, 0, 0⟩, 1)) := by
  constructor
  · exact eccRefine_iterations_le _ _ _ _
  · intro hm hc
    unfold intensityRegister
    exact eccRefine_early_stop _ _ _ _ hm hc

/-- Witness for C6: the termination theorem applied to a concrete
update, configuration and image pair, with the early-stop hypotheses
discharged. -/
theorem intensity_registration_terminates_witness :
    (intensityRegister wStep wECCConfig [[1]] [[2]]).2 ≤
      wECCConfig.maxIterations ∧
    intensityRegister wStep wECCConfig [[1]] [[2]] =
      (⟨0, 0, 0⟩, 1) := by
  have h := intensity_registration_terminates wStep wECCConfig [[1]] [[2]]
  refine ⟨h.1, ?_⟩
  exact h.2 (by norm_num [wECCConfig]) (by norm_num [wStep, paramDist, wECCConfig])

lemma sum_range_shift_mod (n s : Nat) (F : Nat → ℚ) :
    ∑ r ∈ Finset.range n, F ((r + s) % n) = ∑ r ∈ Finset.range n, F r := by
  rcases Nat.eq_zero_or_pos n with h0 | hpos
  · subst h0
    simp
  · refine Finset.sum_nbij' (fun a => (a + s) % n)
      (fun a => (a + (n - s % n)) % n) ?_ ?_ ?_ ?_ ?_
    · intro a _
      exact Finset.mem_range.mpr (Nat.mod_lt _ hpos)
    · intro a _
      exact Finset.mem_range.mpr (Nat.mod_lt _ hpos)
    · intro a ha
      have hlt := Finset.mem_range.mp ha
      have hd := Nat.mod_add_div s n
      have hsn : s % n < n := Nat.mod_lt _ hpos
      show ((a + s) % n + (n - s % n)) % n = a
      rw [Nat.mod_add_mod]
      have hmul : n * (s / n + 1) = n * (s / n) + n := by ring
      have he : a + s + (n - s % n) = a + n * (s / n + 1) := by omega
      rw [he, Nat.add_mul_mod_self_left, Nat.mod_eq_of_lt hlt]
    · intro a ha
      have hlt := Finset.mem_range.mp ha
      have hd := Nat.mod_add_div s n
      have hsn : s % n < n := Nat.mod_lt _ hpos
      show ((a + (n - s % n)) % n + s) % n = a
      rw [Nat.mod_add_mod]
      have hmul : n * (s / n + 1) = n * (s / n) + n := by ring
      have he : a + (n - s % n) + s = a + n * (s / n + 1) := by omega
      rw [he, Nat.add_mul_mod_self_left, Nat.mod_eq_of_lt hlt]
    · intro a _
      rfl

lemma gridSum_shift (hh ww sy sx : Nat) (F : Nat → Nat → ℚ) :
    gridSum hh ww (fun r c => F ((r + sy) % hh) ((c + sx) % ww)) =
      gridSum hh ww F := by
  unfold gridSum
  have hrows : ∀ r, ∑ c ∈ Finset.range ww, F ((r + sy) % hh) ((c + sx) % ww)
      = ∑ c ∈ Finset.range ww, F ((r + sy) % hh) c := fun r =>
    sum_range_shift_mod ww sx (fun c => F ((r + sy) % hh) c)
  rw [Finset.sum_congr rfl fun r _ => hrows r]
  exact sum_range_shift_mod hh sy (fun r => ∑ c ∈ Finset.range ww, F r c)

lemma gridSum_eq_sum_product (hh ww : Nat) (F : Nat → Nat → ℚ) :
    gridSum hh ww F =
      ∑ p ∈ Finset.range hh ×ˢ Finset.range ww, F p.1 p.2 := by
  unfold gridSum
  rw [Finset.sum_product]

lemma energyOn_nonneg (hh ww : Nat) (img : Image) :
    0 ≤ energyOn hh ww img := by
  unfold energyOn gridSum
  refine Finset.sum_nonneg fun r _ => Finset.sum_nonneg fun c _ => sq_nonneg _

lemma crossCorr_sq_le (f g : Image) (sy sx : Nat) :
    crossCorr f g sy sx ^ 2 ≤
      energyOn f.length (imageWidth f) f *
        energyOn f.length (imageWidth f) g := by
  have hcs := Finset.sum_mul_sq_le_sq_mul_sq
    (Finset.range f.length ×ˢ Finset.range (imageWidth f))
    (fun p : Nat × Nat => centered f p.1 p.2)
    (fun p : Nat × Nat =>
      centered g ((p.1 + sy) % f.length) ((p.2 + sx) % imageWidth f))
  have h1 : crossCorr f g sy sx =
      ∑ p ∈ Finset.range f.length ×ˢ Finset.range (imageWidth f),
        centered f p.1 p.2 *
          centered g ((p.1 + sy) % f.length) ((p.2 + sx) % imageWidth f) := by
    unfold crossCorr
    exact gridSum_eq_sum_product _ _ _
  have h2 : energyOn f.length (imageWidth f) f =
      ∑ p ∈ Finset.range f.length ×ˢ Finset.range (imageWidth f),
        centered f p.1 p.2 ^ 2 := by
    unfold energyOn
    exact gridSum_eq_sum_product _ _ _
  have h3 : energyOn f.length (imageWidth f) g =
      ∑ p ∈ Finset.range f.length ×ˢ Finset.range (imageWidth f),
        centered g ((p.1 + sy) % f.length) ((p.2 + sx) % imageWidth f) ^ 2 := by
    have hshift := gridSum_shift f.length (imageWidth f) sy sx
      (fun r c => centered g r c ^ 2)
    unfold energyOn
    rw [← hshift]
    exact gridSum_eq_sum_product _ _ _
  rw [h1, h2, h3]
  exact hcs

lemma corrScore_mem01 (f g : Image) (sy sx : Nat) :
    0 ≤ corrScore f g sy sx ∧ corrScore f g sy sx ≤ 1 := by
  unfold corrScore
  have hDnn : 0 ≤ energyOn f.length (imageWidth f) f *
      energyOn f.length (imageWidth f) g :=
    mul_nonneg (energyOn_nonneg _ _ _) (energyOn_nonneg _ _ _)
  constructor
  · exact div_nonneg (sq_nonneg _) hDnn
  · rcases eq_or_lt_of_le hDnn with h0 | hpos
    · rw [← h0]
      simp
    · rw [div_le_one hpos]
      exact crossCorr_sq_le f g sy sx

lemma foldl_betterPeak_bound (P : ℚ → Prop) (score : Nat × Nat → ℚ)
    (l : List (Nat × Nat)) (hscores : ∀ s ∈ l, P (score s)) :
    ∀ init : (Nat × Nat) × ℚ, P init.2 →
      P ((l.foldl (fun b s => betterPeak b (s, score s)) init).2) := by
  induction l with
  | nil => intro init h; exact h
  | cons a l ih =>
      intro init h
      simp only [List.foldl_cons]
      apply ih (fun s hs => hscores s (List.mem_cons_of_mem a hs))
      unfold betterPeak
      by_cases hc : init.2 < score a
      · simp only [if_pos hc]
        exact hscores a (List.mem_cons_self a l)
      · simp only [if_neg hc]
        exact h

lemma findPeak_quality_mem01 (f g : Image) :
    0 ≤ (findPeak f g).2 ∧ (findPeak f g).2 ≤ 1 := by
  unfold findPeak
  exact foldl_betterPeak_bound (fun q => 0 ≤ q ∧ q ≤ 1)
    (fun s => corrScore f g s.1 s.2) (shiftList f)
    (fun s _ => corrScore_mem01 f g s.1 s.2)
    ((0, 0), corrScore f g 0 0) (corrScore_mem01 f g 0 0)

/-- **C7.** For every pair of equal-shape input images, the estimate
produced by CorrelationRegistration carries a pure translation
transform (translation family, translation matrix, no rotation, scale,
shear or perspective component) and its quality indicator — the
correlation peak value — lies in `[0, 1]`. -/
theorem correlation_translation_only (f g : Image)
    (_hshape : f.length = g.length ∧ imageWidth f = imageWidth g) :
    (correlationRegister f g).transform.family =
      TransformFamily.translation ∧
    (∃ dx dy : ℚ, (correlationRegister f g).transform =
      TransformModel.translationTransform dx dy) ∧
    0 ≤ (correlationRegister f g).quality ∧
    (correlationRegister f g).quality ≤ 1 := by
  refine ⟨rfl, ⟨_, _, rfl⟩, ?_, ?_⟩
  · exact (findPeak_quality_mem01 f g).1
  · exact (findPeak_quality_mem01 f g).2

/-- Witness for C7: the translation-only theorem applied to a concrete
pair of equal-shape images. -/
theorem correlation_translation_only_witness :
    (wImgA.length = wImgB.length ∧ imageWidth wImgA = imageWidth wImgB) ∧
    ((correlationRegister wImgA wImgB).transform.family =
      TransformFamily.translation ∧
    (∃ dx dy : ℚ, (correlationRegister wImgA wImgB).transform =
      TransformModel.translationTransform dx dy) ∧
    0 ≤ (correlationRegister wImgA wImgB).quality ∧
    (correlationRegister wImgA wImgB).quality ≤ 1) :=
  ⟨⟨rfl, rfl⟩, correlation_translation_only wImgA wImgB ⟨rfl, rfl⟩⟩

/-- **C8.** CorrelationRegistration is deterministic: it draws nothing
from the random seed available to the estimation interface, so any two
runs on the same image pair — whatever the ambient random state —
return identical estimates (same transform, same quality). -/
theorem correlation_deterministic (s1 s2 : Nat) (f g : Image) :
    correlationEstimate s1 f g = correlationEstimate s2 f g := rfl

/-- **C9.** The cloud-coverage predicate accepts a mask exactly when
the sum of all its entries divided by the product of its first two
dimensions (not the full entry count: the channel dimension is ignored
in the divisor) is at most the threshold; in particular an all-zero
mask is accepted for every non-negative threshold. -/
theorem maxcc_predicate_spec (maxcc : ℚ) (m : CloudMask) :
    (MaxCCPredicate.call ⟨maxcc⟩ m = true ↔
      sum3 m / ((m.length : ℚ) * ((m.getD 0 []).length : ℚ)) ≤ maxcc) ∧
    ((∀ plane ∈ m, ∀ row ∈ plane, ∀ v ∈ row, v = 0) → 0 ≤ maxcc →
      MaxCCPredicate.call ⟨maxcc⟩ m = true) := by
  constructor
  · exact decide_eq_true_iff
  · intro hz hm
    have hsum : sum3 m = 0 := by
      unfold sum3
      apply List.sum_eq_zero
      intro x hx
      obtain ⟨plane, hplane, rfl⟩ := List.mem_map.mp hx
      apply List.sum_eq_zero
      intro y hy
      obtain ⟨row, hrow, rfl⟩ := List.mem_map.mp hy
      exact List.sum_eq_zero fun v hv => hz plane hplane row hrow v hv
    unfold MaxCCPredicate.call
    rw [hsum, zero_div]
    exact decide_eq_true_iff.mpr hm

/-- Witness for C9: an all-zero 1×2×2 mask is accepted at threshold
1/20. -/
theorem maxcc_predicate_spec_witness :
    MaxCCPredicate.call ⟨1/20⟩ [[[0, 0], [0, 0]]] = true :=
  (maxcc_predicate_spec (1/20) [[[0, 0], [0, 0]]]).2 (by simp) (by norm_num)

lemma castU8_le (q : ℚ) : castU8 q ≤ 255 := by
  unfold castU8
  have h1 : min (max q 0) 255 ≤ (255 : ℚ) := min_le_right _ _
  have h2 : (⌊min (max q 0) 255⌋ : ℤ) ≤ 255 := by
    calc ⌊min (max q 0) 255⌋ ≤ ⌊(255 : ℚ)⌋ := Int.floor_le_floor h1
      _ = 255 := by norm_num
  exact Int.toNat_le.mpr (by exact_mod_cast h2)

lemma getD_map_of_lt {α β : Type} (f : α → β) (l : List α) (i : Nat)
    (d : α) (e : β) (hi : i < l.length) :
    (l.map f).getD i e = f (l.getD i d) := by
  rw [List.getD_eq_getElem _ _ (by simpa using hi), List.getElem_map,
    List.getD_eq_getElem _ _ hi]

/-- **C10.** Every pixel value of every frame written by `make_gif` is
at most 255 (values are natural numbers, so they lie in `[0, 255]`
regardless of the input image's range); and within bounds, the output
value at channel `j` is the input value at channel `2 - j` (first and
third channels swapped), scaled by 2.8, clipped to `[0, 255]` and cast
to uint8. -/
theorem make_gif_frame_spec (image : List (List (List ℚ))) :
    (∀ row ∈ gifFrame image, ∀ pix ∈ row, ∀ v ∈ pix, v ≤ 255) ∧
    (∀ r c j, r < image.length → c < (image.getD r []).length → j < 3 →
      (((gifFrame image).getD r []).getD c []).getD j 0 =
        castU8 ((14/5) *
          (((image.getD r []).getD c []).getD (2 - j) 0))) := by
  constructor
  · intro row hrow pix hpix v hv
    unfold gifFrame at hrow
    obtain ⟨row0, _, rfl⟩ := List.mem_map.mp hrow
    obtain ⟨pix0, _, rfl⟩ := List.mem_map.mp hpix
    obtain ⟨k, _, rfl⟩ := List.mem_map.mp hv
    exact castU8_le _
  · intro r c j hr hc hj
    unfold gifFrame
    rw [getD_map_of_lt _ image r [] [] hr,
      getD_map_of_lt _ (image.getD r []) c [] [] hc]
    interval_cases j <;> rfl

/-- Witness for C10: the pointwise description applied at pixel
`(0, 0)`, channel 0 of a concrete one-pixel image with an
out-of-range value, together with the global bound. -/
theorem make_gif_frame_spec_witness :
    (∀ row ∈ gifFrame [[[300, -5, 100]]], ∀ pix ∈ row, ∀ v ∈ pix,
      v ≤ 255) ∧
    (((gifFrame [[[300, -5, 100]]]).getD 0 []).getD 0 []).getD 0 0 =
      castU8 ((14/5) *
        ((([[[(300 : ℚ), -5, 100]]].getD 0 []).getD 0 []).getD (2 - 0) 0)) :=
  ⟨(make_gif_frame_spec [[[300, -5, 100]]]).1,
   (make_gif_frame_spec [[[300, -5, 100]]]).2 0 0 0 (by norm_num)
     (by norm_num) (by norm_num)⟩
